import Mathlib

/-!
Shallow embedding of the Protocol repository's codec and framing engine.

Byte buffers (`QByteArray`) are modelled as `List Nat`; each element stands for
one byte.  Where the C++ reads a byte through a `quint8`/`uint8_t` cast, the
model applies `% 256` at the read site, so the model is total on all lists and
agrees with the source on genuine byte lists.  32-bit unsigned arithmetic is
modelled on `Nat` with explicit `% 2^32` truncation at the points where the
source can overflow.
-/

namespace Protocol

/-- `MessageType` enumeration from `src/core/message_types.h` (enum values are
the C++ enumerator values). -/
inductive MessageType where
  | CHANNEL_NUMBER
  | CHANNEL_AMPLITUDE
  | CHANNEL_SWITCH
  | CHECK_MOD
  | ANC_SWITCH
  | VEHICLE_STATE
  | TRAN_FUNC_FLAG
  | TRAN_FUNC_STATE
  | FILTER_RANGES
  | SYSTEM_RANGES
  | ORDER_FLAG
  | ORDER2_PARAMS
  | ORDER4_PARAMS
  | ORDER6_PARAMS
  | ALPHA_PARAMS
  | FREQ_DIVISION
  | THRESHOLDS
  | GRAPH_DATA
  deriving DecidableEq

/-- `FunctionCode` from `src/core/message_types.h`: `REQUEST = 0`, `RESPONSE = 1`. -/
inductive FunctionCode where
  | REQUEST
  | RESPONSE
  deriving DecidableEq

/-- `static_cast<quint32>(functionCode)` — the underlying enum value. -/
def FunctionCode.toNat : FunctionCode → Nat
  | .REQUEST => 0
  | .RESPONSE => 1

namespace MessageTypeUtils

/-- The static `protoIDMap` from `MessageTypeUtils::getProtoIDMap`
(`src/core/message_types.cpp`), in source order. -/
def protoIDMap : List (MessageType × Nat) :=
  [(.CHANNEL_NUMBER, 0),
   (.CHANNEL_AMPLITUDE, 25),
   (.CHANNEL_SWITCH, 119),
   (.CHECK_MOD, 150),
   (.ANC_SWITCH, 151),
   (.VEHICLE_STATE, 138),
   (.TRAN_FUNC_FLAG, 153),
   (.TRAN_FUNC_STATE, 154),
   (.FILTER_RANGES, 155),
   (.SYSTEM_RANGES, 157),
   (.ORDER_FLAG, 77),
   (.ORDER2_PARAMS, 78),
   (.ORDER4_PARAMS, 86),
   (.ORDER6_PARAMS, 87),
   (.ALPHA_PARAMS, 158),
   (.FREQ_DIVISION, 27),
   (.THRESHOLDS, 33),
   (.GRAPH_DATA, 156)]

/-- The set of ProtoID values that occur in the static table. -/
def protoIDValues : List Nat := protoIDMap.map Prod.snd

/-- `MessageTypeUtils::fromProtoID`: scan the map for an entry whose value is
`protoID`; return its key, or `CHANNEL_NUMBER` when no entry matches.  (The
C++ iterates a `QHash` in unspecified order; since all values in the table are
pairwise distinct, the result does not depend on the iteration order, and the
model scans in source order.) -/
def fromProtoID (protoID : Nat) : MessageType :=
  match protoIDMap.find? (fun e => e.2 = protoID) with
  | some e => e.1
  | none => .CHANNEL_NUMBER

/-- `MessageTypeUtils::toProtoID`: `getProtoIDMap().value(type, 0)` — table
lookup with default `0`. -/
def toProtoID (t : MessageType) : Nat :=
  match protoIDMap.find? (fun e => e.1 = t) with
  | some e => e.2
  | none => 0

end MessageTypeUtils

namespace ProtocolPackager

/-- `ProtocolPackager::encodeVarint` (`src/serialization/protocol_packager.cpp`):
little-endian base-128 groups, 7 value bits plus a continuation bit per byte.
`v % 128` is `value & 0x7F`, `v % 128 + 128` is `(value & 0x7F) | 0x80`, and
`v / 128` is `value >>= 7`.  The C++ argument is a `quint32`, so `v < 2^32` at
every call site in the source. -/
def encodeVarint (v : Nat) : List Nat :=
  if h : v ≥ 128 then (v % 128 + 128) :: encodeVarint (v / 128) else [v % 128]
  decreasing_by exact Nat.div_lt_self (by omega) (by omega)

/-- Core of `ProtocolPackager::decodeVarint`: decode one varint from the front
of `rem`, returning the value and the number of bytes consumed, or `none` on a
truncated or over-long varint.  The C++ accumulates
`value |= (quint32)(byte & 0x7F) << shift` with `shift` stepping 0,7,14,21,28;
the 7-bit groups occupy pairwise-disjoint bit ranges of the 32-bit value, so
the running bitwise-or equals the sum of the `2^32`-truncated shifted groups
computed here.  The byte is read through a `quint8` cast (`% 256`). -/
def decodeVarintCore : List Nat → Nat → Option (Nat × Nat)
  | [], _ => none
  | b :: rest, shift =>
    let g := (b % 256 % 128) * 2 ^ shift % 2 ^ 32
    if b % 256 < 128 then some (g, 1)
    else if shift + 7 ≥ 32 then none
    else
      match decodeVarintCore rest (shift + 7) with
      | none => none
      | some (v, n) => some (g + v, n + 1)

/-- `ProtocolPackager::encodeLengthPrefixed`: varint length then the raw bytes. -/
def encodeLengthPrefixed (data : List Nat) : List Nat :=
  encodeVarint data.length ++ data

/-- `ProtocolPackager::decodeLengthPrefixed`, relative to the front of `rem`:
decode a varint length, check it fits in the remaining buffer, and slice.
Returns the slice and the total number of bytes consumed.  A decoded length
`≥ 2^31` overflows the `static_cast<int>(length)` in the C++ bound check and
makes the subsequent `mid`/offset arithmetic go out of range; the model maps
that pathological branch to failure (no theorem below reaches it). -/
def decodeLengthPrefixed (rem : List Nat) : Option (List Nat × Nat) :=
  match decodeVarintCore rem 0 with
  | none => none
  | some (len, n) =>
    if len < 2 ^ 31 then
      if n + len > rem.length then none
      else some ((rem.drop n).take len, n + len)
    else none

/-- The `fieldTag` switch in `ProtocolPackager::packageMessage`: the bytes
appended for the oneof payload field of each message type (single tag byte for
fields 3–15, two-byte varint tag for fields 16–19).  `none` is the `default`
branch (`GRAPH_DATA`), where packaging fails with an empty result. -/
def payloadFieldTag : MessageType → Option (List Nat)
  | .CHANNEL_NUMBER => some [0x1A]
  | .CHANNEL_AMPLITUDE => some [0x22]
  | .CHANNEL_SWITCH => some [0x2A]
  | .CHECK_MOD => some [0x32]
  | .ANC_SWITCH => some [0x3A]
  | .VEHICLE_STATE => some [0x42]
  | .TRAN_FUNC_FLAG => some [0x4A]
  | .TRAN_FUNC_STATE => some [0x52]
  | .FILTER_RANGES => some [0x5A]
  | .SYSTEM_RANGES => some [0x62]
  | .ORDER_FLAG => some [0x6A]
  | .ORDER2_PARAMS => some [0x72]
  | .ORDER4_PARAMS => some [0x7A]
  | .ORDER6_PARAMS => some [0x82, 0x01]
  | .ALPHA_PARAMS => some [0x8A, 0x01]
  | .FREQ_DIVISION => some [0x92, 0x01]
  | .THRESHOLDS => some [0x9A, 0x01]
  | .GRAPH_DATA => none

/-- `ProtocolPackager::packageMessage`: field-1 tag `0x08` + varint ProtoID,
field-2 tag `0x10` + varint FunCode, then the per-type payload field tag and
the length-prefixed payload.  `none` models the empty-`QByteArray` failure
return of the `default` branch. -/
def packageMessage (t : MessageType) (fc : FunctionCode) (payload : List Nat) :
    Option (List Nat) :=
  match payloadFieldTag t with
  | none => none
  | some tagBytes =>
    some (0x08 :: encodeVarint (MessageTypeUtils.toProtoID t) ++
          0x10 :: encodeVarint fc.toNat ++
          tagBytes ++ encodeLengthPrefixed payload)

/-- The local decode state of `ProtocolPackager::unpackageMessage`. -/
structure UnpackState where
  protoID : Nat
  funCode : Nat
  payload : List Nat
  foundProtoID : Bool
  foundFunCode : Bool
  foundPayload : Bool
  deriving DecidableEq

/-- The `while (offset < data.size())` loop of
`ProtocolPackager::unpackageMessage`, written on the not-yet-consumed suffix
of the buffer.  Every loop iteration of the C++ consumes at least two bytes
(a tag varint and at least one value byte), so running the loop with
`fuel = data.length` (as `unpackageMessage` below does) never exhausts the
fuel before the buffer: the fuel-0-with-bytes-left branch is unreachable. -/
def unpackGo : Nat → List Nat → UnpackState → Option UnpackState
  | _, [], st => some st
  | 0, _ :: _, _ => none
  | fuel + 1, b :: rem, st =>
    match decodeVarintCore (b :: rem) 0 with
    | none => none
    | some (tag, n) =>
      let rest := (b :: rem).drop n
      let fieldNumber := tag / 8
      let wireType := tag % 8
      if fieldNumber = 1 then
        if wireType ≠ 0 then none
        else
          match decodeVarintCore rest 0 with
          | none => none
          | some (v, m) =>
            unpackGo fuel (rest.drop m) { st with protoID := v, foundProtoID := true }
      else if fieldNumber = 2 then
        if wireType ≠ 0 then none
        else
          match decodeVarintCore rest 0 with
          | none => none
          | some (v, m) =>
            unpackGo fuel (rest.drop m) { st with funCode := v, foundFunCode := true }
      else if 3 ≤ fieldNumber ∧ fieldNumber ≤ 19 then
        if wireType ≠ 2 then none
        else
          match decodeLengthPrefixed rest with
          | none => none
          | some (pl, m) =>
            unpackGo fuel (rest.drop m) { st with payload := pl, foundPayload := true }
      else
        if wireType = 0 then
          match decodeVarintCore rest 0 with
          | none => none
          | some (_, m) => unpackGo fuel (rest.drop m) st
        else if wireType = 2 then
          match decodeLengthPrefixed rest with
          | none => none
          | some (_, m) => unpackGo fuel (rest.drop m) st
        else none

/-- `ProtocolPackager::unpackageMessage`: reject empty input, run the decode
loop, require all three of ProtoID / FunCode / payload to have been seen, and
convert the ProtoID through `MessageTypeUtils::fromProtoID`.  The result
triple models the three C++ out-parameters
`(messageType, functionCode, payloadData)`. -/
def unpackageMessage (data : List Nat) :
    Option (MessageType × Nat × List Nat) :=
  if data = [] then none
  else
    match unpackGo data.length data ⟨0, 0, [], false, false, false⟩ with
    | none => none
    | some st =>
      if st.foundProtoID && st.foundFunCode && st.foundPayload then
        some (MessageTypeUtils.fromProtoID st.protoID, st.funCode, st.payload)
      else none

end ProtocolPackager

namespace ConnectionManager

/-- `PACKET_HEADER = 0xAA` (`src/connection/connection_manager.h`). -/
def PACKET_HEADER : Nat := 0xAA

/-- `PACKET_FOOTER = 0x55`. -/
def PACKET_FOOTER : Nat := 0x55

/-- `MIN_PACKET_SIZE = 3` (header + length + footer). -/
def MIN_PACKET_SIZE : Nat := 3

/-- `ConnectionManager::isPacketComplete`.  Indexed reads go through
`static_cast<uint8_t>` (`% 256`); out-of-range `getD` defaults are never hit
because every read is guarded by the preceding length checks, as in the C++. -/
def isPacketComplete (data : List Nat) : Bool :=
  if data.length < MIN_PACKET_SIZE then false
  else if data.getD 0 0 % 256 ≠ PACKET_HEADER then false
  else
    let dataLength := data.getD 1 0 % 256
    let expectedPacketSize := 2 + dataLength + 1
    if data.length < expectedPacketSize then false
    else if data.getD (expectedPacketSize - 1) 0 % 256 ≠ PACKET_FOOTER then false
    else true

/-- `ConnectionManager::extractCompletePackets`: the
`while (receiveBuffer_.size() >= MIN_PACKET_SIZE)` loop.  Returns the emitted
packet payloads in order together with the final receive buffer.
`findIdx?` models `receiveBuffer_.indexOf(PACKET_HEADER)` (`none` = `-1`:
clear the buffer and stop); `drop headerIndex` models
`receiveBuffer_.remove(0, headerIndex)`; the invalid-packet branch removes
exactly one byte. -/
def extractCompletePackets (buf : List Nat) : List (List Nat) × List Nat :=
  if _h : buf.length < MIN_PACKET_SIZE then ([], buf)
  else
    match buf.findIdx? (fun b => b % 256 == PACKET_HEADER) with
    | none => ([], [])
    | some headerIndex =>
      let b := buf.drop headerIndex
      if b.length < 2 then ([], b)
      else
        let dataLength := b.getD 1 0 % 256
        let expectedPacketSize := 2 + dataLength + 1
        if b.length < expectedPacketSize then ([], b)
        else
          let potentialPacket := b.take expectedPacketSize
          if isPacketComplete potentialPacket then
            let packetData := (potentialPacket.drop 2).take dataLength
            let (ps, rem) := extractCompletePackets (b.drop expectedPacketSize)
            (packetData :: ps, rem)
          else
            extractCompletePackets (b.drop 1)
  termination_by buf.length
  decreasing_by
  · simp only [List.length_drop, MIN_PACKET_SIZE] at *
    omega
  · simp only [List.length_drop, MIN_PACKET_SIZE] at *
    omega

/-- The packet construction in `ConnectionManager::sendData`: header byte,
one length byte `static_cast<uint8_t>(data.size())`, the payload, footer
byte.  `none` models the `"Cannot send empty data"` error return; the
transport-availability checks that precede it in the C++ produce no packet
either and are outside this pure model. -/
def sendDataPacket (data : List Nat) : Option (List Nat) :=
  if data = [] then none
  else some (PACKET_HEADER :: (data.length % 256) :: data ++ [PACKET_FOOTER])

/-- The retry-related state of `ConnectionManager`: `retryQueue_`,
`currentRetryCount_`, `maxRetryCount_`, and whether `retryTimer_` is armed. -/
structure RetryState where
  retryQueue : List (List Nat)
  currentRetryCount : Nat
  maxRetryCount : Nat
  retryTimerActive : Bool
  deriving DecidableEq

/-- Fresh `ConnectionManager` retry state: empty queue, zero count, default
`maxRetryCount_ = 3`, timer idle. -/
def initialRetryState : RetryState := ⟨[], 0, 3, false⟩

/-- `ConnectionManager::sendDataWithRetry` with the transport outcome
abstracted as `send`: set `maxRetryCount_`/`currentRetryCount_`, try a direct
send; on failure enqueue the payload and arm the retry timer.  The boolean
result is the C++ return value. -/
def sendDataWithRetry (send : List Nat → Bool) (s : RetryState)
    (data : List Nat) (maxRetries : Nat) : RetryState × Bool :=
  let s := { s with maxRetryCount := maxRetries, currentRetryCount := 0 }
  if send data then (s, true)
  else ({ s with retryQueue := s.retryQueue ++ [data], retryTimerActive := true }, false)

/-- `ConnectionManager::handleRetryTimeout`: dequeue one payload, retry the
send; on success reset the counter; on failure re-enqueue and re-arm while
`currentRetryCount_ < maxRetryCount_`, otherwise drop the payload and emit
the terminal `"Send failed after N retries"` communication error.  The
boolean result records whether that retry-exhaustion error was emitted. -/
def handleRetryTimeout (send : List Nat → Bool) (s : RetryState) :
    RetryState × Bool :=
  match s.retryQueue with
  | [] => (s, false)
  | dataToRetry :: restQueue =>
    let c := s.currentRetryCount + 1
    if send dataToRetry then
      ({ s with retryQueue := restQueue, currentRetryCount := 0 }, false)
    else if c < s.maxRetryCount then
      ({ s with retryQueue := restQueue ++ [dataToRetry],
                currentRetryCount := c, retryTimerActive := true }, false)
    else
      ({ s with retryQueue := restQueue, currentRetryCount := 0 }, true)

/-- The sequence of retry-mechanism steps for one payload: step 0 is the
`sendDataWithRetry` call on a fresh manager with `maxRetries = 3`, step `k+1`
is the `k+1`-st firing of `handleRetryTimeout`.  The boolean component is
`sendDataWithRetry`'s return value at step 0 and the retry-exhaustion report
at later steps. -/
def retryTrace (send : List Nat → Bool) (data : List Nat) :
    Nat → RetryState × Bool
  | 0 => sendDataWithRetry send initialRetryState data 3
  | k + 1 => handleRetryTimeout send (retryTrace send data k).1

end ConnectionManager

/-- The nanopb `MSG_AncSwitch` message: three boolean wire fields.
`MSG_AncSwitch_init_zero` is `⟨false, false, false⟩`. -/
structure MSG_AncSwitch where
  anc_off : Bool
  enc_off : Bool
  rnc_off : Bool
  deriving DecidableEq, Fintype

/-- Modelled from the spec: the nanopb-generated wire encoder for
`MSG_AncSwitch` (`pb_encode` with `MSG_AncSwitch_fields`); the generated
`ERNC_praram.pb.h` and the nanopb library are not under `src/`.  Spec §4.4:
each codec owns a fixed, schema-specific binary layout whose field order and
width are part of the message contract; the ANC/ENC/RNC switch message
carries the three boolean wire fields `anc_off`, `enc_off`, `rnc_off`.
Modelled as protobuf varint fields 1, 2, 3, emitted in field order with a
0/1 value byte each. -/
def pb_encode_MSG_AncSwitch (m : MSG_AncSwitch) : List Nat :=
  [0x08, if m.anc_off then 1 else 0,
   0x10, if m.enc_off then 1 else 0,
   0x18, if m.rnc_off then 1 else 0]

/-- Modelled from the spec: decode loop of nanopb `pb_decode` for
`MSG_AncSwitch` (not under `src/`), starting from
`MSG_AncSwitch_init_zero`: read a tag varint, assign boolean fields 1–3 from
a varint value (`≠ 0`), skip unknown fields by wire type (varint or
length-delimited), fail on truncated input.  Each loop pass consumes at least
two bytes, so `fuel = data.length` (as used below) never runs out first. -/
def pb_decode_MSG_AncSwitch_go : Nat → List Nat → MSG_AncSwitch →
    Option MSG_AncSwitch
  | _, [], m => some m
  | 0, _ :: _, _ => none
  | fuel + 1, b :: rem, m =>
    match ProtocolPackager.decodeVarintCore (b :: rem) 0 with
    | none => none
    | some (tag, n) =>
      let rest := (b :: rem).drop n
      let fieldNumber := tag / 8
      let wireType := tag % 8
      if fieldNumber = 1 ∧ wireType = 0 then
        match ProtocolPackager.decodeVarintCore rest 0 with
        | none => none
        | some (v, k) =>
          pb_decode_MSG_AncSwitch_go fuel (rest.drop k) { m with anc_off := v != 0 }
      else if fieldNumber = 2 ∧ wireType = 0 then
        match ProtocolPackager.decodeVarintCore rest 0 with
        | none => none
        | some (v, k) =>
          pb_decode_MSG_AncSwitch_go fuel (rest.drop k) { m with enc_off := v != 0 }
      else if fieldNumber = 3 ∧ wireType = 0 then
        match ProtocolPackager.decodeVarintCore rest 0 with
        | none => none
        | some (v, k) =>
          pb_decode_MSG_AncSwitch_go fuel (rest.drop k) { m with rnc_off := v != 0 }
      else if wireType = 0 then
        match ProtocolPackager.decodeVarintCore rest 0 with
        | none => none
        | some (_, k) => pb_decode_MSG_AncSwitch_go fuel (rest.drop k) m
      else if wireType = 2 then
        match ProtocolPackager.decodeLengthPrefixed rest with
        | none => none
        | some (_, k) => pb_decode_MSG_AncSwitch_go fuel (rest.drop k) m
      else none

/-- Modelled from the spec: `pb_decode` entry point for `MSG_AncSwitch`. -/
def pb_decode_MSG_AncSwitch (data : List Nat) : Option MSG_AncSwitch :=
  pb_decode_MSG_AncSwitch_go data.length data ⟨false, false, false⟩

/-- The subset of a `QVariantMap` that `AncMessageHandler` reads and writes:
presence and boolean value of the keys `anc.enabled`, `enc.enabled`,
`rnc.enabled`. -/
structure AncParams where
  anc : Option Bool
  enc : Option Bool
  rnc : Option Bool
  deriving DecidableEq, Fintype

/-- `AncMessageHandler::validateParameters`: at least one of the three keys
must be present; the per-key `canConvert<bool>` type checks always pass for
the boolean values modelled here. -/
def ancValidateParameters (p : AncParams) : Bool :=
  p.anc.isSome || p.enc.isSome || p.rnc.isSome

/-- `AncMessageHandler::serialize`: validate, start from
`MSG_AncSwitch_init_zero`, set each provided parameter's `*_off` field to the
negation of the parameter value (wire `true` = off), leave absent fields at
their zero value, and `pb_encode` the message.  `none` models the
empty-`QByteArray` failure return on validation failure. -/
def ancSerialize (p : AncParams) : Option (List Nat) :=
  if ancValidateParameters p then
    some (pb_encode_MSG_AncSwitch
      { anc_off := match p.anc with | some b => !b | none => false
        enc_off := match p.enc with | some b => !b | none => false
        rnc_off := match p.rnc with | some b => !b | none => false })
  else none

/-- `AncMessageHandler::deserialize`: reject empty data, `pb_decode`, then
write all three keys into the caller-supplied map as the negations of the
wire `*_off` fields. -/
def ancDeserializeInto (data : List Nat) (params : AncParams) : Option AncParams :=
  if data = [] then none
  else
    match pb_decode_MSG_AncSwitch data with
    | none => none
    | some msg =>
      some { params with
              anc := some (!msg.anc_off),
              enc := some (!msg.enc_off),
              rnc := some (!msg.rnc_off) }

/-- `MessageSerializer::serialize(ANC_SWITCH, parameters)`
(`src/serialization/message_serializer.cpp`): the ANC handler is registered,
parameters are validated, the handler runs, and an empty handler result is
reported as failure. -/
def msSerializeAnc (p : AncParams) : Option (List Nat) :=
  if ancValidateParameters p then
    match ancSerialize p with
    | none => none
    | some r => if r = [] then none else some r
  else none

/-- `MessageSerializer::deserialize(ANC_SWITCH, data, parameters)`: reject
empty data, clear the caller's map (`parameters.clear()`), then run the
handler on the cleared map. -/
def msDeserializeAnc (data : List Nat) (_callerParams : AncParams) :
    Option AncParams :=
  if data = [] then none
  else ancDeserializeInto data ⟨none, none, none⟩

/-- The serialize-then-deserialize round trip of the ANC_SWITCH message type
through `MessageSerializer` (spec §8 "Round-trip"). -/
def ancRoundtrip (p : AncParams) : Option AncParams :=
  match msSerializeAnc p with
  | none => none
  | some bytes => msDeserializeAnc bytes ⟨none, none, none⟩

/-- Shared helper: the two directions of the static ProtoID table agree. -/
theorem fromProtoID_toProtoID (t : MessageType) :
    MessageTypeUtils.fromProtoID (MessageTypeUtils.toProtoID t) = t := by
  cases t <;> rfl

end Protocol

/-- C4: for every `MessageType` value `t` of the closed enumeration,
`MessageTypeUtils.fromProtoID (MessageTypeUtils.toProtoID t) = t`, and the
static MessageType-to-ProtoID table is injective (pairwise-distinct ProtoID
values), so the mapping is a bijection in both directions. -/
theorem C4_protoID_bijection :
    (∀ t : Protocol.MessageType,
        Protocol.MessageTypeUtils.fromProtoID (Protocol.MessageTypeUtils.toProtoID t) = t) ∧
    Protocol.MessageTypeUtils.protoIDValues.Nodup ∧
    Function.Injective Protocol.MessageTypeUtils.toProtoID := by
  refine ⟨Protocol.fromProtoID_toProtoID, by decide, ?_⟩
  intro a b h
  have := Protocol.fromProtoID_toProtoID a
  rw [h, Protocol.fromProtoID_toProtoID b] at this
  exact this.symm

/-- C9: for every integer `protoID` not among the values of the static table,
`MessageTypeUtils.fromProtoID` returns the first valid MessageType
`CHANNEL_NUMBER` (whose ProtoID is 0) rather than a distinct not-found signal,
so a failed lookup (e.g. ProtoID 999) is indistinguishable from a legitimate
`CHANNEL_NUMBER` lookup. -/
theorem C9_fromProtoID_fallback :
    (∀ p : Nat, p ∉ Protocol.MessageTypeUtils.protoIDValues →
        Protocol.MessageTypeUtils.fromProtoID p = Protocol.MessageType.CHANNEL_NUMBER) ∧
    Protocol.MessageTypeUtils.fromProtoID 999 =
      Protocol.MessageTypeUtils.fromProtoID
        (Protocol.MessageTypeUtils.toProtoID Protocol.MessageType.CHANNEL_NUMBER) ∧
    Protocol.MessageTypeUtils.toProtoID Protocol.MessageType.CHANNEL_NUMBER = 0 := by
  refine ⟨?_, rfl, rfl⟩
  intro p hp
  unfold Protocol.MessageTypeUtils.fromProtoID
  have hfind : Protocol.MessageTypeUtils.protoIDMap.find? (fun e => e.2 = p) = none := by
    rw [List.find?_eq_none]
    intro e he hdec
    exact hp (by
      have : e.2 = p := by simpa using hdec
      rw [← this]
      exact List.mem_map_of_mem Prod.snd he)
  rw [hfind]

/-- Witness for C9 at `p = 999`. -/
theorem C9_fromProtoID_fallback_witness :
    Protocol.MessageTypeUtils.fromProtoID 999 = Protocol.MessageType.CHANNEL_NUMBER :=
  C9_fromProtoID_fallback.1 999 (by decide)

namespace Protocol.ProtocolPackager

theorem encodeVarint_length_pos (v : Nat) : 0 < (encodeVarint v).length := by
  rw [encodeVarint]
  split <;> simp

theorem encodeVarint_ne_nil (v : Nat) : encodeVarint v ≠ [] := by
  intro h
  have := encodeVarint_length_pos v
  rw [h] at this
  simp at this

/-- Decoding a varint-encoded value from the front of a buffer recovers the
value (shifted by the current `shift`) and consumes exactly the encoding. -/
theorem decodeVarintCore_encode (v : Nat) :
    ∀ (shift : Nat) (rest : List Nat), v * 2 ^ shift < 2 ^ 32 →
      decodeVarintCore (encodeVarint v ++ rest) shift =
        some (v * 2 ^ shift, (encodeVarint v).length) := by
  induction v using Nat.strong_induction_on with
  | _ v ih =>
    intro shift rest h
    rw [encodeVarint]
    by_cases hv : v ≥ 128
    · rw [dif_pos hv, List.cons_append]
      have hb256 : (v % 128 + 128) % 256 = v % 128 + 128 :=
        Nat.mod_eq_of_lt (by have := Nat.mod_lt v (y := 128) (by omega); omega)
      have hpow : 2 ^ (shift + 7) ≤ v * 2 ^ shift := by
        rw [pow_add]
        calc 2 ^ shift * 2 ^ 7 = 2 ^ 7 * 2 ^ shift := Nat.mul_comm _ _
          _ ≤ v * 2 ^ shift := Nat.mul_le_mul_right _ (by norm_num; omega)
      have hshift : shift + 7 < 32 := by
        have h1 : 2 ^ (shift + 7) < 2 ^ 32 := lt_of_le_of_lt hpow h
        exact (Nat.pow_lt_pow_iff_right (by norm_num)).mp h1
      have hrec : (v / 128) * 2 ^ (shift + 7) ≤ v * 2 ^ shift := by
        rw [pow_add]
        calc v / 128 * (2 ^ shift * 2 ^ 7) = v / 128 * 2 ^ 7 * 2 ^ shift := by ring
          _ ≤ v * 2 ^ shift := by
            refine Nat.mul_le_mul_right _ ?_
            have h2 : v / 128 * 2 ^ 7 = 128 * (v / 128) := by norm_num; ring
            rw [h2]
            omega
    -- `omega` uses `Nat.mod_add_div`-style reasoning on `v / 128`
      have ihres := ih (v / 128) (Nat.div_lt_self (by omega) (by norm_num))
        (shift + 7) rest (lt_of_le_of_lt hrec h)
      simp only [decodeVarintCore, hb256]
      rw [if_neg (by omega), if_neg (by omega), ihres]
      have hg : (v % 128 + 128) % 128 = v % 128 := by omega
      rw [hg]
      have hmodlt : v % 128 * 2 ^ shift < 2 ^ 32 :=
        lt_of_le_of_lt (Nat.mul_le_mul_right _ (Nat.mod_le v 128)) h
      rw [Nat.mod_eq_of_lt hmodlt]
      dsimp only
      have hsum : v % 128 * 2 ^ shift + v / 128 * 2 ^ (shift + 7) = v * 2 ^ shift := by
        rw [pow_add]
        have : v % 128 * 2 ^ shift + v / 128 * (2 ^ shift * 2 ^ 7) =
            (v % 128 + 2 ^ 7 * (v / 128)) * 2 ^ shift := by ring
        rw [this]
        congr 1
        have h7 : (2 : Nat) ^ 7 = 128 := by norm_num
        rw [h7]
        exact Nat.mod_add_div v 128
      rw [hsum]
      simp [List.length_cons]
    · rw [dif_neg hv]
      have hvlt : v < 128 := by omega
      rw [Nat.mod_eq_of_lt hvlt, List.singleton_append]
      simp only [decodeVarintCore]
      rw [if_pos (by omega)]
      have hb256 : v % 256 = v := Nat.mod_eq_of_lt (by omega)
      rw [hb256, Nat.mod_eq_of_lt hvlt, Nat.mod_eq_of_lt h]
      simp [encodeVarint, dif_neg hv, Nat.mod_eq_of_lt hvlt]

/-- `decodeVarintCore` at shift 0 inverts `encodeVarint`. -/
theorem decodeVarintCore_encode_zero (v : Nat) (h : v < 2 ^ 32) (rest : List Nat) :
    decodeVarintCore (encodeVarint v ++ rest) 0 = some (v, (encodeVarint v).length) := by
  have := decodeVarintCore_encode v 0 rest (by simpa using h)
  simpa using this

/-- `decodeLengthPrefixed` inverts `encodeLengthPrefixed` at the front of a
buffer, consuming the length varint and the payload. -/
theorem decodeLengthPrefixed_encode (payload rest : List Nat)
    (hlen : payload.length < 2 ^ 31) :
    decodeLengthPrefixed (encodeLengthPrefixed payload ++ rest) =
      some (payload, (encodeVarint payload.length).length + payload.length) := by
  unfold decodeLengthPrefixed encodeLengthPrefixed
  rw [List.append_assoc,
    decodeVarintCore_encode_zero payload.length (lt_trans hlen (by norm_num)) _]
  dsimp only
  rw [if_pos hlen, if_neg (by simp [List.length_append])]
  rw [List.drop_left, List.take_left]

end Protocol.ProtocolPackager

namespace Protocol.ProtocolPackager

theorem unpackGo_nil (f : Nat) (st : UnpackState) : unpackGo f [] st = some st := by
  cases f <;> rfl

/-- One decode-loop pass over the field-1 (ProtoID) portion of an envelope. -/
theorem unpackGo_field1 (f pid : Nat) (hpid : pid < 2 ^ 32) (rest : List Nat)
    (st : UnpackState) :
    unpackGo (f + 1) (0x08 :: (encodeVarint pid ++ rest)) st =
      unpackGo f rest { st with protoID := pid, foundProtoID := true } := by
  have h8 : decodeVarintCore (0x08 :: (encodeVarint pid ++ rest)) 0 = some (8, 1) := by
    simp [decodeVarintCore]
  simp only [unpackGo, h8]
  norm_num
  rw [decodeVarintCore_encode_zero pid hpid rest]
  simp [List.drop_left]

/-- One decode-loop pass over the field-2 (FunCode) portion of an envelope. -/
theorem unpackGo_field2 (f fcv : Nat) (hfcv : fcv < 2 ^ 32) (rest : List Nat)
    (st : UnpackState) :
    unpackGo (f + 1) (0x10 :: (encodeVarint fcv ++ rest)) st =
      unpackGo f rest { st with funCode := fcv, foundFunCode := true } := by
  have h16 : decodeVarintCore (0x10 :: (encodeVarint fcv ++ rest)) 0 = some (16, 1) := by
    simp [decodeVarintCore]
  simp only [unpackGo, h16]
  norm_num
  rw [decodeVarintCore_encode_zero fcv hfcv rest]
  simp [List.drop_left]

/-- One decode-loop pass over a payload field (field number 3–19, wire type 2). -/
theorem unpackGo_payload (f fn : Nat) (h3 : 3 ≤ fn) (h19 : fn ≤ 19)
    (payload rest : List Nat) (hlen : payload.length < 2 ^ 31) (st : UnpackState) :
    unpackGo (f + 1)
        (encodeVarint (fn * 8 + 2) ++ (encodeLengthPrefixed payload ++ rest)) st =
      unpackGo f rest { st with payload := payload, foundPayload := true } := by
  have htv : fn * 8 + 2 < 2 ^ 32 :=
    lt_of_le_of_lt (by omega : fn * 8 + 2 ≤ 154) (by norm_num)
  obtain ⟨b, tail, hbt⟩ :=
    List.exists_cons_of_ne_nil (encodeVarint_ne_nil (fn * 8 + 2))
  have hdec := decodeVarintCore_encode_zero (fn * 8 + 2) htv
    (encodeLengthPrefixed payload ++ rest)
  rw [hbt] at hdec ⊢
  rw [List.cons_append] at hdec ⊢
  simp only [unpackGo, hdec, List.length_cons]
  rw [if_neg (by omega : ¬ (fn * 8 + 2) / 8 = 1),
    if_neg (by omega : ¬ (fn * 8 + 2) / 8 = 2),
    if_pos (show 3 ≤ (fn * 8 + 2) / 8 ∧ (fn * 8 + 2) / 8 ≤ 19 by omega),
    if_neg (by omega : ¬ (fn * 8 + 2) % 8 ≠ 2)]
  rw [List.drop_succ_cons, List.drop_left]
  rw [decodeLengthPrefixed_encode payload rest hlen]
  dsimp only
  congr 1
  simp only [encodeLengthPrefixed, ← List.append_assoc]
  exact List.drop_left' (by simp [List.length_append])

/-- One decode-loop pass over an unknown field (number ≥ 20) of wire type 0:
the varint value is skipped and the state is unchanged. -/
theorem unpackGo_skip_varint (f n v : Nat) (h20 : 20 ≤ n) (hn : n < 2 ^ 28)
    (hv : v < 2 ^ 32) (rest : List Nat) (st : UnpackState) :
    unpackGo (f + 1) (encodeVarint (n * 8) ++ (encodeVarint v ++ rest)) st =
      unpackGo f rest st := by
  have htv : n * 8 < 2 ^ 32 := by
    have : n * 8 < 2 ^ 28 * 8 := by omega
    calc n * 8 < 2 ^ 28 * 8 := this
      _ ≤ 2 ^ 32 := by norm_num
  obtain ⟨b, tail, hbt⟩ := List.exists_cons_of_ne_nil (encodeVarint_ne_nil (n * 8))
  have hdec := decodeVarintCore_encode_zero (n * 8) htv (encodeVarint v ++ rest)
  rw [hbt] at hdec ⊢
  rw [List.cons_append] at hdec ⊢
  simp only [unpackGo, hdec, List.length_cons]
  rw [if_neg (by omega : ¬ n * 8 / 8 = 1),
    if_neg (by omega : ¬ n * 8 / 8 = 2),
    if_neg (show ¬ (3 ≤ n * 8 / 8 ∧ n * 8 / 8 ≤ 19) by omega),
    if_pos (by omega : n * 8 % 8 = 0)]
  rw [List.drop_succ_cons, List.drop_left]
  rw [decodeVarintCore_encode_zero v hv rest]
  dsimp only
  congr 1
  exact List.drop_left _ _

/-- One decode-loop pass over an unknown field (number ≥ 20) of wire type 2:
the length-delimited content is skipped and the state is unchanged. -/
theorem unpackGo_skip_lenpref (f n : Nat) (h20 : 20 ≤ n) (hn : n < 2 ^ 28)
    (content rest : List Nat) (hc : content.length < 2 ^ 31) (st : UnpackState) :
    unpackGo (f + 1)
        (encodeVarint (n * 8 + 2) ++ (encodeLengthPrefixed content ++ rest)) st =
      unpackGo f rest st := by
  have htv : n * 8 + 2 < 2 ^ 32 := by
    have : n * 8 + 2 < 2 ^ 28 * 8 + 2 := by omega
    calc n * 8 + 2 < 2 ^ 28 * 8 + 2 := this
      _ ≤ 2 ^ 32 := by norm_num
  obtain ⟨b, tail, hbt⟩ :=
    List.exists_cons_of_ne_nil (encodeVarint_ne_nil (n * 8 + 2))
  have hdec := decodeVarintCore_encode_zero (n * 8 + 2) htv
    (encodeLengthPrefixed content ++ rest)
  rw [hbt] at hdec ⊢
  rw [List.cons_append] at hdec ⊢
  simp only [unpackGo, hdec, List.length_cons]
  rw [if_neg (by omega : ¬ (n * 8 + 2) / 8 = 1),
    if_neg (by omega : ¬ (n * 8 + 2) / 8 = 2),
    if_neg (show ¬ (3 ≤ (n * 8 + 2) / 8 ∧ (n * 8 + 2) / 8 ≤ 19) by omega),
    if_neg (by omega : ¬ (n * 8 + 2) % 8 = 0),
    if_pos (by omega : (n * 8 + 2) % 8 = 2)]
  rw [List.drop_succ_cons, List.drop_left]
  rw [decodeLengthPrefixed_encode content rest hc]
  dsimp only
  congr 1
  simp only [encodeLengthPrefixed, ← List.append_assoc]
  exact List.drop_left' (by simp [List.length_append])

/-- A decode-loop pass over an unknown field (number ≥ 20) whose wire type is
neither 0 nor 2 fails, whatever bytes follow. -/
theorem unpackGo_unknown_wiretype (f n wt : Nat) (h20 : 20 ≤ n) (hn : n < 2 ^ 28)
    (hwt8 : wt < 8) (hwt0 : wt ≠ 0) (hwt2 : wt ≠ 2) (junk : List Nat)
    (st : UnpackState) :
    unpackGo (f + 1) (encodeVarint (n * 8 + wt) ++ junk) st = none := by
  have htv : n * 8 + wt < 2 ^ 32 := by
    have : n * 8 + wt < 2 ^ 28 * 8 + 8 := by omega
    calc n * 8 + wt < 2 ^ 28 * 8 + 8 := this
      _ ≤ 2 ^ 32 := by norm_num
  obtain ⟨b, tail, hbt⟩ :=
    List.exists_cons_of_ne_nil (encodeVarint_ne_nil (n * 8 + wt))
  have hdec := decodeVarintCore_encode_zero (n * 8 + wt) htv junk
  rw [hbt] at hdec ⊢
  rw [List.cons_append] at hdec ⊢
  simp only [unpackGo, hdec, List.length_cons]
  rw [if_neg (by omega : ¬ (n * 8 + wt) / 8 = 1),
    if_neg (by omega : ¬ (n * 8 + wt) / 8 = 2),
    if_neg (show ¬ (3 ≤ (n * 8 + wt) / 8 ∧ (n * 8 + wt) / 8 ≤ 19) by omega),
    if_neg (by omega : ¬ (n * 8 + wt) % 8 = 0),
    if_neg (by omega : ¬ (n * 8 + wt) % 8 = 2)]

/-- Three decode-loop passes consume a complete packaged envelope and leave
the state fully populated, whatever follows. -/
theorem unpackGo_core (pid fcv fn : Nat) (hpid : pid < 2 ^ 32) (hfcv : fcv < 2 ^ 32)
    (h3 : 3 ≤ fn) (h19 : fn ≤ 19) (payload extra : List Nat)
    (hlen : payload.length < 2 ^ 31) (st : UnpackState) (f : Nat) :
    unpackGo (f + 3)
        (0x08 :: (encodeVarint pid ++
          0x10 :: (encodeVarint fcv ++
            (encodeVarint (fn * 8 + 2) ++ (encodeLengthPrefixed payload ++ extra))))) st =
      unpackGo f extra ⟨pid, fcv, payload, true, true, true⟩ := by
  rw [show f + 3 = (f + 2) + 1 from rfl, unpackGo_field1 (f + 2) pid hpid _ st]
  rw [show f + 2 = (f + 1) + 1 from rfl, unpackGo_field2 (f + 1) fcv hfcv _ _]
  rw [unpackGo_payload f fn h3 h19 payload extra hlen _]

end Protocol.ProtocolPackager

namespace Protocol.ProtocolPackager

/-- Every message type of the packager's field-tag table carries the varint
tag of a wire-type-2 field with number 3–19. -/
theorem package_core_shape (t : MessageType) (ht : t ≠ .GRAPH_DATA) :
    ∃ fn, 3 ≤ fn ∧ fn ≤ 19 ∧ payloadFieldTag t = some (encodeVarint (fn * 8 + 2)) := by
  cases t
  case GRAPH_DATA => exact absurd rfl ht
  case CHANNEL_NUMBER => exact ⟨3, by omega, by omega, by simp [payloadFieldTag, encodeVarint]⟩
  case CHANNEL_AMPLITUDE => exact ⟨4, by omega, by omega, by simp [payloadFieldTag, encodeVarint]⟩
  case CHANNEL_SWITCH => exact ⟨5, by omega, by omega, by simp [payloadFieldTag, encodeVarint]⟩
  case CHECK_MOD => exact ⟨6, by omega, by omega, by simp [payloadFieldTag, encodeVarint]⟩
  case ANC_SWITCH => exact ⟨7, by omega, by omega, by simp [payloadFieldTag, encodeVarint]⟩
  case VEHICLE_STATE => exact ⟨8, by omega, by omega, by simp [payloadFieldTag, encodeVarint]⟩
  case TRAN_FUNC_FLAG => exact ⟨9, by omega, by omega, by simp [payloadFieldTag, encodeVarint]⟩
  case TRAN_FUNC_STATE => exact ⟨10, by omega, by omega, by simp [payloadFieldTag, encodeVarint]⟩
  case FILTER_RANGES => exact ⟨11, by omega, by omega, by simp [payloadFieldTag, encodeVarint]⟩
  case SYSTEM_RANGES => exact ⟨12, by omega, by omega, by simp [payloadFieldTag, encodeVarint]⟩
  case ORDER_FLAG => exact ⟨13, by omega, by omega, by simp [payloadFieldTag, encodeVarint]⟩
  case ORDER2_PARAMS => exact ⟨14, by omega, by omega, by simp [payloadFieldTag, encodeVarint]⟩
  case ORDER4_PARAMS => exact ⟨15, by omega, by omega, by simp [payloadFieldTag, encodeVarint]⟩
  case ORDER6_PARAMS => exact ⟨16, by omega, by omega, by simp [payloadFieldTag, encodeVarint]⟩
  case ALPHA_PARAMS => exact ⟨17, by omega, by omega, by simp [payloadFieldTag, encodeVarint]⟩
  case FREQ_DIVISION => exact ⟨18, by omega, by omega, by simp [payloadFieldTag, encodeVarint]⟩
  case THRESHOLDS => exact ⟨19, by omega, by omega, by simp [payloadFieldTag, encodeVarint]⟩

theorem toProtoID_lt (t : MessageType) : MessageTypeUtils.toProtoID t < 2 ^ 32 := by
  cases t <;> decide

theorem funCode_lt (fc : FunctionCode) : fc.toNat < 2 ^ 32 := by
  cases fc <;> decide

/-- Unpackaging a packaged envelope followed by arbitrary extra fields runs
the decode loop to the fully-populated state on the extra bytes. -/
theorem unpackage_package_extra (t : MessageType) (fc : FunctionCode)
    (payload extra : List Nat) (ht : t ≠ .GRAPH_DATA)
    (hlen : payload.length < 2 ^ 31) :
    ∃ bytes, packageMessage t fc payload = some bytes ∧ 6 ≤ bytes.length ∧
      ∀ st₀ : UnpackState,
        unpackGo (bytes ++ extra).length (bytes ++ extra) st₀ =
          unpackGo ((bytes ++ extra).length - 3) extra
            ⟨MessageTypeUtils.toProtoID t, fc.toNat, payload, true, true, true⟩ := by
  obtain ⟨fn, h3, h19, htag⟩ := package_core_shape t ht
  refine ⟨0x08 :: encodeVarint (MessageTypeUtils.toProtoID t) ++
      0x10 :: encodeVarint fc.toNat ++
      encodeVarint (fn * 8 + 2) ++ encodeLengthPrefixed payload, ?_, ?_, ?_⟩
  · unfold packageMessage
    rw [htag]
  · have e1 := encodeVarint_length_pos (MessageTypeUtils.toProtoID t)
    have e2 := encodeVarint_length_pos fc.toNat
    have e3 := encodeVarint_length_pos (fn * 8 + 2)
    have e4 := encodeVarint_length_pos payload.length
    simp [List.length_append, encodeLengthPrefixed]
    omega
  intro st₀
  have hlen6 : 6 ≤ (0x08 :: encodeVarint (MessageTypeUtils.toProtoID t) ++
      0x10 :: encodeVarint fc.toNat ++
      encodeVarint (fn * 8 + 2) ++ encodeLengthPrefixed payload).length := by
    have e1 := encodeVarint_length_pos (MessageTypeUtils.toProtoID t)
    have e2 := encodeVarint_length_pos fc.toNat
    have e3 := encodeVarint_length_pos (fn * 8 + 2)
    have e4 := encodeVarint_length_pos payload.length
    simp [List.length_append, encodeLengthPrefixed]
    omega
  rw [show ((0x08 :: encodeVarint (MessageTypeUtils.toProtoID t) ++
      0x10 :: encodeVarint fc.toNat ++
      encodeVarint (fn * 8 + 2) ++ encodeLengthPrefixed payload) ++ extra).length =
      (((0x08 :: encodeVarint (MessageTypeUtils.toProtoID t) ++
        0x10 :: encodeVarint fc.toNat ++
        encodeVarint (fn * 8 + 2) ++ encodeLengthPrefixed payload) ++ extra).length - 3) + 3
    by simp [List.length_append] at hlen6 ⊢; omega]
  have hshape : (0x08 :: encodeVarint (MessageTypeUtils.toProtoID t) ++
      0x10 :: encodeVarint fc.toNat ++
      encodeVarint (fn * 8 + 2) ++ encodeLengthPrefixed payload) ++ extra =
      0x08 :: (encodeVarint (MessageTypeUtils.toProtoID t) ++
        0x10 :: (encodeVarint fc.toNat ++
          (encodeVarint (fn * 8 + 2) ++ (encodeLengthPrefixed payload ++ extra)))) := by
    simp [List.cons_append, List.append_assoc]
  rw [hshape]
  exact unpackGo_core (MessageTypeUtils.toProtoID t) fc.toNat fn
    (toProtoID_lt t) (funCode_lt fc) h3 h19 payload extra hlen st₀ _

/-- Packaging then unpackaging restores message type, function code and
payload. -/
theorem packageMessage_unpackage (t : MessageType) (fc : FunctionCode)
    (payload : List Nat) (ht : t ≠ .GRAPH_DATA) (hlen : payload.length < 2 ^ 31) :
    ∃ bytes, packageMessage t fc payload = some bytes ∧
      unpackageMessage bytes = some (t, fc.toNat, payload) := by
  obtain ⟨bytes, hpack, hlen6, hgo⟩ := unpackage_package_extra t fc payload [] ht hlen
  refine ⟨bytes, hpack, ?_⟩
  have hne : bytes ≠ [] := by
    intro hb
    rw [hb] at hlen6
    simp at hlen6
  rw [unpackageMessage, if_neg hne]
  have hgo0 := hgo ⟨0, 0, [], false, false, false⟩
  rw [List.append_nil] at hgo0
  rw [hgo0, unpackGo_nil]
  simp [fromProtoID_toProtoID]

end Protocol.ProtocolPackager

/-- C1: for every message type in the packager's static field-tag table (every
`MessageType` except the `default`-branch `GRAPH_DATA`), every function code
and every payload byte array, unpackaging the result of packaging yields the
same ProtoID (hence the same message type, via the bijective table), the same
function code and the same payload; in particular packaging `ANC_SWITCH`
(ProtoID 151) with `REQUEST` and payload `[0x01]` and then unpackaging
returns `ANC_SWITCH`, `REQUEST` and `[0x01]`. -/
theorem C1_package_unpackage_roundtrip :
    (∀ (t : Protocol.MessageType) (fc : Protocol.FunctionCode) (payload : List Nat),
        t ≠ .GRAPH_DATA → payload.length < 2 ^ 31 →
        ∃ bytes,
          Protocol.ProtocolPackager.packageMessage t fc payload = some bytes ∧
          Protocol.ProtocolPackager.unpackageMessage bytes =
            some (t, fc.toNat, payload)) ∧
    Protocol.MessageTypeUtils.toProtoID .ANC_SWITCH = 151 ∧
    (∃ bytes,
        Protocol.ProtocolPackager.packageMessage .ANC_SWITCH .REQUEST [0x01] =
          some bytes ∧
        Protocol.ProtocolPackager.unpackageMessage bytes =
          some (.ANC_SWITCH, Protocol.FunctionCode.REQUEST.toNat, [0x01])) :=
  ⟨Protocol.ProtocolPackager.packageMessage_unpackage, by decide,
    Protocol.ProtocolPackager.packageMessage_unpackage _ _ _ (by decide) (by decide)⟩

/-- Witness for C1 at `THRESHOLDS`, `RESPONSE`, payload `[9, 200]`. -/
theorem C1_package_unpackage_roundtrip_witness :
    ∃ bytes,
      Protocol.ProtocolPackager.packageMessage .THRESHOLDS .RESPONSE [9, 200] =
        some bytes ∧
      Protocol.ProtocolPackager.unpackageMessage bytes =
        some (.THRESHOLDS, Protocol.FunctionCode.RESPONSE.toNat, [9, 200]) :=
  C1_package_unpackage_roundtrip.1 _ _ _ (by decide) (by decide)

/-- C6 (amended): `unpackageMessage` skips unknown field numbers only for the
two wire types the `default` branch handles — wire type 0 (varint) and wire
type 2 (length-delimited) — and decoding still succeeds when the required
fields are present; an unknown field with any other wire type (1, 3, 4, 5, 6,
7) makes decoding fail even though all required fields are present. -/
theorem C6_unknown_field_handling :
    (∀ (t : Protocol.MessageType) (fc : Protocol.FunctionCode)
        (payload : List Nat) (n v : Nat),
        t ≠ .GRAPH_DATA → payload.length < 2 ^ 31 →
        20 ≤ n → n < 2 ^ 28 → v < 2 ^ 32 →
        ∃ bytes,
          Protocol.ProtocolPackager.packageMessage t fc payload = some bytes ∧
          Protocol.ProtocolPackager.unpackageMessage
              (bytes ++ (Protocol.ProtocolPackager.encodeVarint (n * 8) ++
                Protocol.ProtocolPackager.encodeVarint v)) =
            some (t, fc.toNat, payload)) ∧
    (∀ (t : Protocol.MessageType) (fc : Protocol.FunctionCode)
        (payload content : List Nat) (n : Nat),
        t ≠ .GRAPH_DATA → payload.length < 2 ^ 31 →
        20 ≤ n → n < 2 ^ 28 → content.length < 2 ^ 31 →
        ∃ bytes,
          Protocol.ProtocolPackager.packageMessage t fc payload = some bytes ∧
          Protocol.ProtocolPackager.unpackageMessage
              (bytes ++ (Protocol.ProtocolPackager.encodeVarint (n * 8 + 2) ++
                Protocol.ProtocolPackager.encodeLengthPrefixed content)) =
            some (t, fc.toNat, payload)) ∧
    (∀ (t : Protocol.MessageType) (fc : Protocol.FunctionCode)
        (payload junk : List Nat) (n wt : Nat),
        t ≠ .GRAPH_DATA → payload.length < 2 ^ 31 →
        20 ≤ n → n < 2 ^ 28 → wt < 8 → wt ≠ 0 → wt ≠ 2 →
        ∃ bytes,
          Protocol.ProtocolPackager.packageMessage t fc payload = some bytes ∧
          Protocol.ProtocolPackager.unpackageMessage
              (bytes ++ (Protocol.ProtocolPackager.encodeVarint (n * 8 + wt) ++
                junk)) = none) := by
  refine ⟨?_, ?_, ?_⟩
  · intro t fc payload n v ht hlen h20 hn hv
    obtain ⟨bytes, hpack, hlen6, hgo⟩ :=
      Protocol.ProtocolPackager.unpackage_package_extra t fc payload
        (Protocol.ProtocolPackager.encodeVarint (n * 8) ++
          Protocol.ProtocolPackager.encodeVarint v) ht hlen
    refine ⟨bytes, hpack, ?_⟩
    rw [Protocol.ProtocolPackager.unpackageMessage,
      if_neg (by simp; intro hb; rw [hb] at hlen6; simp at hlen6)]
    rw [hgo ⟨0, 0, [], false, false, false⟩]
    have hN : (bytes ++ (Protocol.ProtocolPackager.encodeVarint (n * 8) ++
        Protocol.ProtocolPackager.encodeVarint v)).length - 3 =
        ((bytes ++ (Protocol.ProtocolPackager.encodeVarint (n * 8) ++
          Protocol.ProtocolPackager.encodeVarint v)).length - 4) + 1 := by
      simp [List.length_append]
      omega
    rw [hN]
    have hskip := Protocol.ProtocolPackager.unpackGo_skip_varint
      ((bytes ++ (Protocol.ProtocolPackager.encodeVarint (n * 8) ++
        Protocol.ProtocolPackager.encodeVarint v)).length - 4) n v h20 hn hv []
      ⟨Protocol.MessageTypeUtils.toProtoID t, fc.toNat, payload, true, true, true⟩
    rw [List.append_nil] at hskip
    rw [hskip, Protocol.ProtocolPackager.unpackGo_nil]
    simp [Protocol.fromProtoID_toProtoID]
  · intro t fc payload content n ht hlen h20 hn hc
    obtain ⟨bytes, hpack, hlen6, hgo⟩ :=
      Protocol.ProtocolPackager.unpackage_package_extra t fc payload
        (Protocol.ProtocolPackager.encodeVarint (n * 8 + 2) ++
          Protocol.ProtocolPackager.encodeLengthPrefixed content) ht hlen
    refine ⟨bytes, hpack, ?_⟩
    rw [Protocol.ProtocolPackager.unpackageMessage,
      if_neg (by simp; intro hb; rw [hb] at hlen6; simp at hlen6)]
    rw [hgo ⟨0, 0, [], false, false, false⟩]
    have hN : (bytes ++ (Protocol.ProtocolPackager.encodeVarint (n * 8 + 2) ++
        Protocol.ProtocolPackager.encodeLengthPrefixed content)).length - 3 =
        ((bytes ++ (Protocol.ProtocolPackager.encodeVarint (n * 8 + 2) ++
          Protocol.ProtocolPackager.encodeLengthPrefixed content)).length - 4) + 1 := by
      simp [List.length_append]
      omega
    rw [hN]
    have hskip := Protocol.ProtocolPackager.unpackGo_skip_lenpref
      ((bytes ++ (Protocol.ProtocolPackager.encodeVarint (n * 8 + 2) ++
        Protocol.ProtocolPackager.encodeLengthPrefixed content)).length - 4) n h20 hn
      content [] hc
      ⟨Protocol.MessageTypeUtils.toProtoID t, fc.toNat, payload, true, true, true⟩
    rw [List.append_nil] at hskip
    rw [hskip, Protocol.ProtocolPackager.unpackGo_nil]
    simp [Protocol.fromProtoID_toProtoID]
  · intro t fc payload junk n wt ht hlen h20 hn hwt8 hwt0 hwt2
    obtain ⟨bytes, hpack, hlen6, hgo⟩ :=
      Protocol.ProtocolPackager.unpackage_package_extra t fc payload
        (Protocol.ProtocolPackager.encodeVarint (n * 8 + wt) ++ junk) ht hlen
    refine ⟨bytes, hpack, ?_⟩
    rw [Protocol.ProtocolPackager.unpackageMessage,
      if_neg (by simp; intro hb; rw [hb] at hlen6; simp at hlen6)]
    rw [hgo ⟨0, 0, [], false, false, false⟩]
    have hN : (bytes ++ (Protocol.ProtocolPackager.encodeVarint (n * 8 + wt) ++
        junk)).length - 3 =
        ((bytes ++ (Protocol.ProtocolPackager.encodeVarint (n * 8 + wt) ++
          junk)).length - 4) + 1 := by
      have := Protocol.ProtocolPackager.encodeVarint_length_pos (n * 8 + wt)
      simp [List.length_append]
      omega
    rw [hN]
    rw [Protocol.ProtocolPackager.unpackGo_unknown_wiretype _ n wt h20 hn hwt8
      hwt0 hwt2 junk _]

/-- C6 counterexample: the packaged `ANC_SWITCH` request with payload `[0x01]`
decodes fine on its own, but appending one unknown field of wire type 5
(tag bytes `0xA5 0x01`, field number 20) makes `unpackageMessage` fail even
though all required fields are present — unknown fields are not skipped for
every wire type that can occur in a tag. -/
theorem C6_unknown_field_counterexample :
    Protocol.ProtocolPackager.packageMessage .ANC_SWITCH .REQUEST [0x01] =
      some [0x08, 0x97, 0x01, 0x10, 0x00, 0x3A, 0x01, 0x01] ∧
    Protocol.ProtocolPackager.unpackageMessage
        [0x08, 0x97, 0x01, 0x10, 0x00, 0x3A, 0x01, 0x01] =
      some (.ANC_SWITCH, 0, [0x01]) ∧
    Protocol.ProtocolPackager.unpackageMessage
        ([0x08, 0x97, 0x01, 0x10, 0x00, 0x3A, 0x01, 0x01] ++ [0xA5, 0x01]) =
      none := by
  refine ⟨?_, by decide, by decide⟩
  simp [Protocol.ProtocolPackager.packageMessage,
    Protocol.ProtocolPackager.payloadFieldTag,
    Protocol.ProtocolPackager.encodeVarint,
    Protocol.ProtocolPackager.encodeLengthPrefixed,
    Protocol.MessageTypeUtils.toProtoID, Protocol.MessageTypeUtils.protoIDMap,
    Protocol.FunctionCode.toNat]

/-- Witness for C6 at `ANC_SWITCH`, `REQUEST`, payload `[1]`, unknown varint
field number 20 with value 300. -/
theorem C6_unknown_field_handling_witness :
    ∃ bytes,
      Protocol.ProtocolPackager.packageMessage .ANC_SWITCH .REQUEST [1] =
        some bytes ∧
      Protocol.ProtocolPackager.unpackageMessage
          (bytes ++ (Protocol.ProtocolPackager.encodeVarint (20 * 8) ++
            Protocol.ProtocolPackager.encodeVarint 300)) =
        some (.ANC_SWITCH, Protocol.FunctionCode.REQUEST.toNat, [1]) :=
  C6_unknown_field_handling.1 _ _ _ 20 300 (by decide) (by decide) (by decide)
    (by decide) (by decide)

set_option maxRecDepth 4000 in
/-- C7 counterexample: for a 256-byte payload the length byte written by
`sendData` is `256 % 256 = 0`, which is not the payload length — the claimed
exact packet shape (length byte = `payload.len()`) fails for payloads longer
than 255 bytes. -/
theorem C7_length_byte_counterexample :
    Protocol.ConnectionManager.sendDataPacket (List.replicate 256 0) ≠
      some (0xAA :: (List.replicate 256 0).length ::
        List.replicate 256 0 ++ [0x55]) := by decide

/-- C7 (amended): for every non-empty payload the packet handed to the
transport is exactly header `0xAA`, one length byte `payload.len() % 256`,
the payload bytes, then footer `0x55`; the total packet size is
`payload.len() + 3` and the length byte is at most 255, but it equals
`payload.len()` only when the payload is at most 255 bytes long. -/
theorem C7_sendData_packet_shape :
    ∀ data : List Nat, data ≠ [] →
      Protocol.ConnectionManager.sendDataPacket data =
        some (0xAA :: (data.length % 256) :: data ++ [0x55]) ∧
      (0xAA :: (data.length % 256) :: data ++ [0x55]).length = data.length + 3 ∧
      data.length % 256 ≤ 255 ∧
      (data.length ≤ 255 → data.length % 256 = data.length) := by
  intro data hne
  refine ⟨?_, ?_, by omega, by omega⟩
  · simp [Protocol.ConnectionManager.sendDataPacket, hne,
      Protocol.ConnectionManager.PACKET_HEADER,
      Protocol.ConnectionManager.PACKET_FOOTER]
  · simp [List.length_append]

/-- Witness for C7 (amended) at payload `[7]`. -/
theorem C7_sendData_packet_shape_witness :
    Protocol.ConnectionManager.sendDataPacket [7] =
      some (0xAA :: (([7] : List Nat).length % 256) :: [7] ++ [0x55]) ∧
    (0xAA :: (([7] : List Nat).length % 256) :: [7] ++ [0x55]).length =
      ([7] : List Nat).length + 3 ∧
    ([7] : List Nat).length % 256 ≤ 255 ∧
    (([7] : List Nat).length ≤ 255 → ([7] : List Nat).length % 256 =
      ([7] : List Nat).length) :=
  C7_sendData_packet_shape [7] (by decide)

/-- C8: with `maxRetryCount_ = 3` and a transport whose every send fails, the
initial `sendDataWithRetry` send fails and enqueues the payload, the first
two retry-timer sends fail without reporting exhaustion (the payload stays
queued), and the third failed retry send reports the terminal
"send failed after 3 retries" error with the retry queue left empty — the
payload is dropped, not re-enqueued. -/
theorem C8_retry_exhaustion (data : List Nat) :
    (Protocol.ConnectionManager.retryTrace (fun _ => false) data 0).2 = false ∧
    (Protocol.ConnectionManager.retryTrace (fun _ => false) data 0).1.retryQueue
      = [data] ∧
    (Protocol.ConnectionManager.retryTrace (fun _ => false) data 1).2 = false ∧
    (Protocol.ConnectionManager.retryTrace (fun _ => false) data 1).1.retryQueue
      = [data] ∧
    (Protocol.ConnectionManager.retryTrace (fun _ => false) data 2).2 = false ∧
    (Protocol.ConnectionManager.retryTrace (fun _ => false) data 2).1.retryQueue
      = [data] ∧
    (Protocol.ConnectionManager.retryTrace (fun _ => false) data 3).2 = true ∧
    (Protocol.ConnectionManager.retryTrace (fun _ => false) data 3).1.retryQueue
      = [] :=
  ⟨rfl, rfl, rfl, rfl, rfl, rfl, rfl, rfl⟩

/-- C5: serializing the one-entry parameter map `{anc.enabled: true}` through
the ANC_SWITCH codec produces a payload whose decoded wire boolean field
`anc_off` is `false` — the wire polarity is the logical inversion of the
parameter value. -/
theorem C5_wire_polarity_inversion :
    Protocol.msSerializeAnc ⟨some true, none, none⟩ =
      some [0x08, 0x00, 0x10, 0x00, 0x18, 0x00] ∧
    Protocol.ancSerialize ⟨some true, none, none⟩ =
      some [0x08, 0x00, 0x10, 0x00, 0x18, 0x00] ∧
    ∃ msg, Protocol.pb_decode_MSG_AncSwitch [0x08, 0x00, 0x10, 0x00, 0x18, 0x00]
        = some msg ∧ msg.anc_off = false :=
  ⟨by decide, by decide, ⟨false, false, false⟩, by decide, rfl⟩

/-- C3 counterexample: the one-entry map `{anc.enabled: true}` passes the ANC
handler's validation, but deserializing its serialization yields the
three-entry map `{anc: true, enc: true, rnc: true}`, not the input map — the
round-trip claim fails for validation-passing maps that omit keys. -/
theorem C3_roundtrip_counterexample :
    Protocol.ancValidateParameters ⟨some true, none, none⟩ = true ∧
    Protocol.ancRoundtrip ⟨some true, none, none⟩ =
      some ⟨some true, some true, some true⟩ ∧
    Protocol.ancRoundtrip ⟨some true, none, none⟩ ≠
      some ⟨some true, none, none⟩ := by decide

/-- C3 (amended): for the ANC_SWITCH codec, deserializing the serialization
of any validation-passing parameter map yields the map whose three keys carry
the input values where present and `true` (= wire `off` field left at its
zero value) where absent; in particular the round trip restores the input map
exactly whenever all three keys are supplied. -/
theorem C3_roundtrip_amended :
    ∀ p : Protocol.AncParams, Protocol.ancValidateParameters p = true →
      Protocol.ancRoundtrip p =
        some ⟨some (p.anc.getD true), some (p.enc.getD true),
          some (p.rnc.getD true)⟩ ∧
      (p.anc.isSome → p.enc.isSome → p.rnc.isSome →
        Protocol.ancRoundtrip p = some p) := by decide

/-- Witness for C3 (amended) at the all-keys map
`{anc: true, enc: false, rnc: true}`. -/
theorem C3_roundtrip_amended_witness :
    Protocol.ancRoundtrip ⟨some true, some false, some true⟩ =
      some ⟨some true, some false, some true⟩ :=
  (C3_roundtrip_amended ⟨some true, some false, some true⟩ (by decide)).2
    (by decide) (by decide) (by decide)

/-- C10: whenever `MessageSerializer::deserialize` for ANC_SWITCH succeeds,
the resulting map holds exactly the three handler-written keys — each the
negation of the corresponding decoded wire `off` field — regardless of what
the serialized input contained, and independently of the caller's previous
map contents (the serializer clears the map before invoking the handler). -/
theorem C10_deserialize_writes_all_keys :
    ∀ (data : List Nat) (prev out : Protocol.AncParams),
      Protocol.msDeserializeAnc data prev = some out →
      (∃ msg, Protocol.pb_decode_MSG_AncSwitch data = some msg ∧
        out = ⟨some (!msg.anc_off), some (!msg.enc_off), some (!msg.rnc_off)⟩) ∧
      out.anc.isSome ∧ out.enc.isSome ∧ out.rnc.isSome ∧
      (∀ prev' : Protocol.AncParams,
        Protocol.msDeserializeAnc data prev' = some out) := by
  intro data prev out h
  unfold Protocol.msDeserializeAnc Protocol.ancDeserializeInto at h
  by_cases hd : data = []
  · simp [hd] at h
  · simp only [if_neg hd] at h
    cases hdec : Protocol.pb_decode_MSG_AncSwitch data with
    | none => rw [hdec] at h; simp at h
    | some msg =>
      rw [hdec] at h
      simp only [Option.some.injEq] at h
      subst h
      refine ⟨⟨msg, rfl, rfl⟩, rfl, rfl, rfl, fun prev' => ?_⟩
      unfold Protocol.msDeserializeAnc Protocol.ancDeserializeInto
      simp only [if_neg hd]
      rw [hdec]

/-- Witness for C10 at data `[0x08, 0x01]` (wire `anc_off = true`) and a
non-empty caller map. -/
theorem C10_deserialize_writes_all_keys_witness :
    (∃ msg, Protocol.pb_decode_MSG_AncSwitch [0x08, 0x01] = some msg ∧
      (⟨some false, some true, some true⟩ : Protocol.AncParams) =
        ⟨some (!msg.anc_off), some (!msg.enc_off), some (!msg.rnc_off)⟩) ∧
    (Protocol.AncParams.mk (some false) (some true) (some true)).anc.isSome ∧
    (Protocol.AncParams.mk (some false) (some true) (some true)).enc.isSome ∧
    (Protocol.AncParams.mk (some false) (some true) (some true)).rnc.isSome ∧
    (∀ prev' : Protocol.AncParams,
      Protocol.msDeserializeAnc [0x08, 0x01] prev' =
        some ⟨some false, some true, some true⟩) :=
  C10_deserialize_writes_all_keys [0x08, 0x01] ⟨none, some false, none⟩
    ⟨some false, some true, some true⟩ (by decide)

namespace Protocol.ConnectionManager

/-- `receiveBuffer_.indexOf(PACKET_HEADER)` over a buffer whose first
`g.length` bytes are not the header byte finds the header right after them. -/
theorem findIdx?_header (g t : List Nat) (hg : ∀ b ∈ g, b % 256 ≠ 0xAA) :
    ∀ i : Nat,
      List.findIdx? (fun b => b % 256 == PACKET_HEADER) (g ++ 0xAA :: t) i =
        some (i + g.length) := by
  induction g with
  | nil =>
    intro i
    rw [List.nil_append, List.findIdx?_cons, if_pos (by simp [PACKET_HEADER])]
    simp
  | cons a g ih =>
    intro i
    rw [List.cons_append, List.findIdx?_cons,
      if_neg (by simpa [PACKET_HEADER] using hg a (by simp)),
      ih (fun b hb => hg b (by simp [hb])) (i + 1)]
    simp
    omega

/-- `findIdx?_header` at the default start index 0. -/
theorem findIdx?_header_zero (g t : List Nat) (hg : ∀ b ∈ g, b % 256 ≠ 0xAA) :
    List.findIdx? (fun b => b % 256 == PACKET_HEADER) (g ++ 0xAA :: t) =
      some g.length := by
  simpa using findIdx?_header g t hg 0

theorem extract_nil : extractCompletePackets [] = ([], []) := by
  rw [extractCompletePackets]
  norm_num [MIN_PACKET_SIZE]

/-- Skipping garbage and consuming one well-formed frame: a buffer of
non-header garbage followed by a complete frame yields exactly that frame's
payload and an empty buffer. -/
theorem extract_valid_frame (g payload : List Nat)
    (hg : ∀ b ∈ g, b % 256 ≠ 0xAA) (hlen : payload.length ≤ 255) :
    extractCompletePackets
        (g ++ 0xAA :: payload.length :: (payload ++ [0x55])) = ([payload], []) := by
  have hmod : payload.length % 256 = payload.length := Nat.mod_eq_of_lt (by omega)
  rw [extractCompletePackets,
    dif_neg (by simp [MIN_PACKET_SIZE, List.length_append]; omega),
    findIdx?_header_zero g _ hg]
  dsimp only
  rw [List.drop_left]
  rw [if_neg (by simp)]
  simp only [List.getD_cons_succ, List.getD_cons_zero, hmod]
  rw [if_neg (by simp [List.length_append]; omega)]
  rw [List.take_of_length_le (by simp [List.length_append]; omega)]
  have hcomplete :
      isPacketComplete (0xAA :: payload.length :: (payload ++ [0x55])) = true := by
    rw [isPacketComplete]
    rw [if_neg (by simp [MIN_PACKET_SIZE, List.length_append])]
    rw [if_neg (by simp [PACKET_HEADER])]
    simp only [List.getD_cons_succ, List.getD_cons_zero, hmod]
    rw [if_neg (by simp [List.length_append]; omega)]
    rw [if_neg ?_]
    have hfoot : (0xAA :: payload.length :: (payload ++ [0x55])).getD
        (2 + payload.length + 1 - 1) 0 = 0x55 := by
      simp only [show 2 + payload.length + 1 - 1 = payload.length + 2 from by omega,
        List.getD_cons_succ]
      rw [List.getD_append_right _ _ _ _ (le_refl _)]
      simp
    rw [hfoot]
    simp [PACKET_FOOTER]
  rw [hcomplete]
  simp only [if_pos rfl]
  rw [List.drop_succ_cons, List.drop_succ_cons, List.drop_zero, List.take_left]
  rw [List.drop_eq_nil_of_le (by simp [List.length_append]; omega)]
  rw [extract_nil]
  simp

end Protocol.ConnectionManager

namespace Protocol.ConnectionManager

/-- When a candidate frame is complete but its footer byte is not `0x55`,
`extractCompletePackets` discards exactly one byte — the header — and
rescans the rest of the buffer. -/
theorem extract_invalid_footer_step (b1 : Nat) (rest : List Nat)
    (hsz : 2 + b1 % 256 + 1 ≤ (0xAA :: b1 :: rest).length)
    (hfoot : (0xAA :: b1 :: rest).getD (2 + b1 % 256) 0 % 256 ≠ 0x55) :
    extractCompletePackets (0xAA :: b1 :: rest) =
      extractCompletePackets (b1 :: rest) := by
  rw [extractCompletePackets,
    dif_neg (by simp [MIN_PACKET_SIZE] at hsz ⊢; omega)]
  rw [show List.findIdx? (fun b => b % 256 == PACKET_HEADER)
      (0xAA :: b1 :: rest) = some 0 from by
    rw [List.findIdx?_cons]
    simp [PACKET_HEADER]]
  dsimp only
  rw [List.drop_zero]
  rw [if_neg (by simp)]
  simp only [List.getD_cons_succ, List.getD_cons_zero]
  rw [if_neg (by simp at hsz ⊢; omega)]
  have htl : ((0xAA :: b1 :: rest).take (2 + b1 % 256 + 1)).length =
      2 + b1 % 256 + 1 := by
    simp [List.length_take]
    simp at hsz
    omega
  have hgd : ∀ n : Nat, n < 2 + b1 % 256 + 1 →
      ((0xAA :: b1 :: rest).take (2 + b1 % 256 + 1)).getD n 0 =
        (0xAA :: b1 :: rest).getD n 0 := by
    intro n hn
    rw [List.getD_eq_getElem?_getD, List.getElem?_take_of_lt hn,
      ← List.getD_eq_getElem?_getD]
  have hfalse : isPacketComplete
      ((0xAA :: b1 :: rest).take (2 + b1 % 256 + 1)) = false := by
    rw [isPacketComplete]
    rw [if_neg (by rw [htl]; simp [MIN_PACKET_SIZE])]
    rw [hgd 0 (by omega)]
    rw [if_neg (by simp [PACKET_HEADER])]
    rw [hgd 1 (by omega)]
    simp only [List.getD_cons_succ, List.getD_cons_zero]
    rw [htl]
    rw [if_neg (by omega)]
    have hfd := hgd (2 + b1 % 256 + 1 - 1) (by omega)
    have hfoot' : (0xAA :: b1 :: rest).getD (2 + b1 % 256 + 1 - 1) 0 % 256 ≠
        PACKET_FOOTER := by
      rw [show 2 + b1 % 256 + 1 - 1 = 2 + b1 % 256 from by omega]
      simpa [PACKET_FOOTER] using hfoot
    simp only [hfd]
    rw [if_pos hfoot']
  rw [hfalse]
  simp only [Bool.false_eq_true, if_false]
  rw [List.drop_succ_cons, List.drop_zero]

end Protocol.ConnectionManager

/-- C2: the packet framer (a) turns a stream of non-header garbage followed
by `0xAA` and a well-formed frame into exactly that one frame's payload,
(b) on a footer mismatch discards exactly 1 byte — the `0xAA` header — and
resumes scanning, and (c) consequently a well-formed frame that follows a
corrupted-footer candidate (whose remaining bytes are not header bytes) in
the same buffer is still extracted. -/
theorem C2_framer_resync_discard_one :
    (∀ g payload : List Nat, (∀ b ∈ g, b % 256 ≠ 0xAA) → payload.length ≤ 255 →
      Protocol.ConnectionManager.extractCompletePackets
          (g ++ 0xAA :: payload.length :: (payload ++ [0x55])) =
        ([payload], [])) ∧
    (∀ (b1 : Nat) (rest : List Nat),
      2 + b1 % 256 + 1 ≤ (0xAA :: b1 :: rest).length →
      (0xAA :: b1 :: rest).getD (2 + b1 % 256) 0 % 256 ≠ 0x55 →
      Protocol.ConnectionManager.extractCompletePackets (0xAA :: b1 :: rest) =
        Protocol.ConnectionManager.extractCompletePackets (b1 :: rest)) ∧
    (∀ (j : Nat) (js payload : List Nat),
      (∀ b ∈ j :: js, b % 256 ≠ 0xAA) → payload.length ≤ 255 →
      2 + j % 256 + 1 ≤
        (0xAA :: j :: (js ++ 0xAA :: payload.length ::
          (payload ++ [0x55]))).length →
      (0xAA :: j :: (js ++ 0xAA :: payload.length ::
          (payload ++ [0x55]))).getD (2 + j % 256) 0 % 256 ≠ 0x55 →
      Protocol.ConnectionManager.extractCompletePackets
          (0xAA :: j :: (js ++ 0xAA :: payload.length :: (payload ++ [0x55]))) =
        ([payload], [])) := by
  refine ⟨Protocol.ConnectionManager.extract_valid_frame,
    Protocol.ConnectionManager.extract_invalid_footer_step, ?_⟩
  intro j js payload hg hlen hsz hfoot
  rw [Protocol.ConnectionManager.extract_invalid_footer_step j _ hsz hfoot]
  rw [← List.cons_append]
  exact Protocol.ConnectionManager.extract_valid_frame (j :: js) payload hg hlen

/-- Witness for C2: (a) garbage `[1, 2]` then the frame for payload `[0x7A]`;
(b) buffer `[0xAA, 1, 0x7A, 0x99]` with corrupt footer `0x99`; (c) corrupted
candidate followed by the valid frame for `[0x7A]`. -/
theorem C2_framer_resync_discard_one_witness :
    Protocol.ConnectionManager.extractCompletePackets
        ([1, 2] ++ 0xAA :: ([0x7A] : List Nat).length :: ([0x7A] ++ [0x55])) =
      ([[0x7A]], []) ∧
    Protocol.ConnectionManager.extractCompletePackets (0xAA :: 1 :: [0x7A, 0x99]) =
      Protocol.ConnectionManager.extractCompletePackets (1 :: [0x7A, 0x99]) ∧
    Protocol.ConnectionManager.extractCompletePackets
        (0xAA :: 1 :: ([0x30] ++ 0xAA :: ([0x7A] : List Nat).length ::
          ([0x7A] ++ [0x55]))) = ([[0x7A]], []) :=
  ⟨C2_framer_resync_discard_one.1 [1, 2] [0x7A] (by decide) (by decide),
   C2_framer_resync_discard_one.2.1 1 [0x7A, 0x99] (by decide) (by decide),
   C2_framer_resync_discard_one.2.2 1 [0x30] [0x7A] (by decide) (by decide)
     (by decide) (by decide)⟩

/-- Witness for C4 at `ANC_SWITCH`. -/
theorem C4_protoID_bijection_witness :
    Protocol.MessageTypeUtils.fromProtoID
        (Protocol.MessageTypeUtils.toProtoID Protocol.MessageType.ANC_SWITCH) =
      Protocol.MessageType.ANC_SWITCH :=
  C4_protoID_bijection.1 Protocol.MessageType.ANC_SWITCH

/-- Witness for C8 at the payload `[1, 2, 3]`. -/
theorem C8_retry_exhaustion_witness :
    (Protocol.ConnectionManager.retryTrace (fun _ => false) [1, 2, 3] 3).2 = true ∧
    (Protocol.ConnectionManager.retryTrace (fun _ => false) [1, 2, 3] 3).1.retryQueue
      = [] :=
  ⟨(C8_retry_exhaustion [1, 2, 3]).2.2.2.2.2.2.1,
   (C8_retry_exhaustion [1, 2, 3]).2.2.2.2.2.2.2⟩
